import Mathlib

/-!
Verification of the configuration composition pipeline of
`src/template/config/index.js` (the `lad` boilerplate).

The file shallowly embeds:
* the deep-merge engine used at line 238 (`_.merge(config, environments[env.NODE_ENV])`,
  lodash `_.merge` semantics) over a JS-value tree type;
* the derived-field computations (`config.auth.hasThirdPartyProviders`, line 241;
  `config.meta`, line 244);
* the augmentation stage (lines 247-284) over an explicit heap of JS objects, so
  that reference sharing and in-place mutation are represented faithfully.
-/

/-- Primitive (non-reference) runtime values appearing in the config module.
Values that the module computes from its environment or defines as literals are
tagged so that distinct sources stay distinguishable:
* `envv n`   — the value of `env.N` (resolved environment map, `src/template/config/env.js`);
* `pathJoin r` — `path.join(__dirname, ...)` with relative suffix `r`;
* `func t`   — a function literal or required function-valued module;
* `moduleRef n` — a required data module (e.g. `phrases`);
* `dyn t`    — a scalar computed at startup from the environment (ternaries,
  template strings, `os.hostname()`, the derived `meta`/`hasThirdPartyProviders`
  values whose inputs are environment-dependent);
* `handle t` — a collaborator handle constructed during augmentation. -/
inductive Scalar where
  | str (s : String)
  | num (n : Int)
  | sbool (b : Bool)
  | envv (name : String)
  | pathJoin (rel : String)
  | func (tag : String)
  | moduleRef (name : String)
  | dyn (tag : String)
  | handle (tag : String)
deriving DecidableEq

/-! ## The deep-merge engine (lodash `_.merge`, line 238)

A JS value is `undefined`, a primitive scalar, a function, an array, or a
plain object.  An array is represented the way JavaScript stores it: by its
own enumerable properties, an ordered field list whose keys are the decimal
index strings "0", "1", ....  This matters because lodash's merge addresses
array elements through exactly those keys: merging a plain-object source into
an array base retains the array and grafts the object's keys into it
(`_.merge({x: [1, 2]}, {x: {0: 9}})` is `{x: [9, 2]}`).  Non-function exotic
objects (class instances, Dates, buffers, `arguments` objects) do not occur
in the config module's mergeable positions and are outside the modelled value
domain.  The two types are mutually inductive so that all recursions and
inductions are structural. -/

mutual
inductive JSVal where
  | undef : JSVal
  | scalar : Scalar → JSVal
  | func : String → JSVal
  | arr : JSFields → JSVal
  | obj : JSFields → JSVal
inductive JSFields where
  | fnil : JSFields
  | fcons : String → JSVal → JSFields → JSFields
end

/-- First-match lookup of a key in an object's field list. -/
def lookupF : JSFields → String → Option JSVal
  | .fnil, _ => none
  | .fcons k v tl, key => if k = key then some v else lookupF tl key

/-- Does the field list carry the key? -/
def hasKeyF (fs : JSFields) (k : String) : Bool :=
  (lookupF fs k).isSome

/-- Keys of the field list are pairwise distinct (shallow). -/
def nodupKeysF : JSFields → Bool
  | .fnil => true
  | .fcons k _ tl => !(hasKeyF tl k) && nodupKeysF tl

/-! Hereditary well-formedness: every object layer of the value has pairwise
distinct keys.  Objects produced by a JavaScript runtime always satisfy this. -/
mutual
def wfV : JSVal → Bool
  | .obj fs => wfF fs
  | .arr fs => wfF fs
  | _ => true
def wfF : JSFields → Bool
  | .fnil => true
  | .fcons k v tl => !(hasKeyF tl k) && wfV v && wfF tl
end

/-- Own enumerable properties of a value: the field list of a plain object or
an array (its index-keyed elements), else empty. -/
def fieldsOf : JSVal → JSFields
  | .obj fs => fs
  | .arr fs => fs
  | _ => .fnil

mutual
/-- Lodash merge of one overlay value onto one base value (per-property
semantics of `baseMergeDeep`):
* `undefined` source values are skipped (the base value survives);
* primitive source values override;
* function source values override (assigned by reference);
* an array source merges index-by-index into a retained array base
  (`newValue = objValue`; base elements beyond the source's length survive);
  over any non-array base lodash starts from a fresh `[]` and merges the
  source into it, i.e. a structural copy of the source replaces the base;
* a plain-object source merges key-by-key into a retained plain-object base,
  and likewise into a retained **array** base (`newValue = objValue`): the
  object's keys are grafted into the array, index keys addressing elements,
  so `_.merge({x: [1, 2]}, {x: {0: 9}})` is `{x: [9, 2]}`; over a primitive,
  `undefined` or function base the source is cloned into a fresh object. -/
def mergeVal : JSVal → JSVal → JSVal
  | b, .undef => b
  | _, .scalar s => .scalar s
  | _, .func t => .func t
  | .arr bfs, .arr fs => .arr (mergeFields bfs fs)
  | _, .arr fs => .arr (mergeFields .fnil fs)
  | .obj bfs, .obj fs => .obj (mergeFields bfs fs)
  | .arr bfs, .obj fs => .arr (mergeFields bfs fs)
  | _, .obj fs => .obj (mergeFields .fnil fs)
termination_by b o => (sizeOf o, 0)
decreasing_by
  all_goals simp_wf
  all_goals first
  | (apply Prod.Lex.right; simp_arith; done)
  | (apply Prod.Lex.left; simp_arith; done)
  | (apply Prod.Lex.left; cases fs <;> simp_arith)

/-- Merge an overlay field list into a base field list: overlay keys are
processed in order; a key already present updates the base entry in place,
a new key is appended. -/
def mergeFields : JSFields → JSFields → JSFields
  | bfs, .fnil => bfs
  | bfs, .fcons k ov fs => mergeFields (setKey bfs k ov) fs
termination_by bfs fs => (sizeOf fs, 0)
decreasing_by
  all_goals simp_wf
  all_goals first
  | (apply Prod.Lex.right; simp_arith; done)
  | (apply Prod.Lex.left; simp_arith; done)
  | (apply Prod.Lex.left; cases fs <;> simp_arith)

/-- Update the first entry carrying key `k` by merging `ov` onto it; append a
fresh entry when the key is absent. -/
def setKey : JSFields → String → JSVal → JSFields
  | .fnil, k, ov => .fcons k ov .fnil
  | .fcons k1 bv tl, k, ov =>
      if k1 = k then .fcons k1 (mergeVal bv ov) tl
      else .fcons k1 bv (setKey tl k ov)
termination_by bfs k ov => (sizeOf ov + 1, sizeOf bfs)
decreasing_by
  all_goals simp_wf
  all_goals first
  | (apply Prod.Lex.right; simp_arith; done)
  | (apply Prod.Lex.left; simp_arith; done)
  | (apply Prod.Lex.left; cases fs <;> simp_arith)

end

/-- `_.isObject` (lodash): objects, arrays and functions are object-like;
primitives and `undefined` are not. -/
def isObjectLike : JSVal → Bool
  | .obj _ => true
  | .arr _ => true
  | .func _ => true
  | _ => false

/-- Top-level `_.merge(config, o)`: the own enumerable properties of the
source `o` are merged into the destination object (for an array source these
are its index keys).  Functions have no own enumerable properties, so a
function source leaves the destination unchanged. -/
def topMerge (b o : JSVal) : JSVal :=
  match o with
  | .obj fs => .obj (mergeFields (fieldsOf b) fs)
  | .arr fs => .obj (mergeFields (fieldsOf b) fs)
  | _ => b

/-- The guard of line 238: `_.isObject(environments[env.NODE_ENV])`.
A missing entry yields `undefined`, which is not object-like. -/
def overlayStructured (overlays : JSFields) (envName : String) : Bool :=
  match lookupF overlays envName with
  | some o => isObjectLike o
  | none => false

/-- Lines 237-238: the guarded overlay application of the pipeline. -/
def applyOverlay (base : JSVal) (overlays : JSFields) (envName : String) : JSVal :=
  if overlayStructured overlays envName then
    topMerge base ((lookupF overlays envName).getD .undef)
  else base

/-! ### Claim C1: the per-key replace-vs-merge rule of line 238 -/

/-- Base fixture: `{ a: [1, 2] }` (the array as its index-keyed fields). -/
def c1Base : JSVal :=
  .obj (.fcons "a"
    (.arr (.fcons "0" (.scalar (.num 1)) (.fcons "1" (.scalar (.num 2)) .fnil)))
    .fnil)

/-- Overlay fixture: `{ a: [9] }`. -/
def c1Overlay : JSVal :=
  .obj (.fcons "a" (.arr (.fcons "0" (.scalar (.num 9)) .fnil)) .fnil)

abbrev Addr := Nat

/-- A runtime value of the mutation phase: a primitive scalar or a reference to
a heap object. -/
inductive HVal where
  | prim (s : Scalar)
  | ref (a : Addr)
deriving DecidableEq

/-- A JS object: its own enumerable properties in insertion order. -/
abbrev Obj := List (String × HVal)

/-- The object heap: a finite map from addresses to objects. -/
abbrev Heap := List (Addr × Obj)

/-- Read a property of an object. -/
def objGet : Obj → String → Option HVal
  | [], _ => none
  | (k1, v) :: tl, k => if k1 = k then some v else objGet tl k

/-- Assign a property of an object: overwrite in place, or append a new key. -/
def objSet : Obj → String → HVal → Obj
  | [], k, v => [(k, v)]
  | (k1, v1) :: tl, k, v =>
      if k1 = k then (k1, v) :: tl else (k1, v1) :: objSet tl k v

/-- Dereference an address. -/
def heapGet : Heap → Addr → Option Obj
  | [], _ => none
  | (a1, o) :: tl, a => if a1 = a then some o else heapGet tl a

/-- `target.k = v`: mutate the object at address `a` in place. -/
def setField : Heap → Addr → String → HVal → Heap
  | [], _, _, _ => []
  | (a1, o) :: tl, a, k, v =>
      if a1 = a then (a1, objSet o k v) :: setField tl a k v
      else (a1, o) :: setField tl a k v

/-- Read `a.k` through the heap. -/
def fieldGet (h : Heap) (a : Addr) (k : String) : Option HVal :=
  (heapGet h a).bind (fun o => objGet o k)

/-- Resolve a property path starting from a value. -/
def lookupVPath (h : Heap) : HVal → List String → Option HVal
  | v, [] => some v
  | .ref a, k :: p =>
      match fieldGet h a k with
      | some v2 => lookupVPath h v2 p
      | none => none
  | .prim _, _ :: _ => none

/-- `h1` preserves every property value readable in `h0` (new properties and
new objects may appear; nothing present changes). -/
def HeapExtends (h0 h1 : Heap) : Prop :=
  ∀ a k v, fieldGet h0 a k = some v → fieldGet h1 a k = some v

/-! ## The base configuration object graph (lines 18-244)

One heap address per object literal of the `config` definition, in source
order.  Environment-sourced scalars are `Scalar.envv`, literals are `.str`,
`.num`, `.sbool`, `path.join(__dirname, ...)` values are `.pathJoin`,
function literals are `.func`, and startup-computed scalars (ternaries on
`env.NODE_ENV`, template strings, `os.hostname()`) are `.dyn`.  The heap below
is the state right before the augmentation stage (line 247): it already
carries the two derived fields of lines 240-244 (`auth.hasThirdPartyProviders`
and `meta`), and models the run in which `environments[env.NODE_ENV]` is
absent, so the merge of line 238 left the base unchanged (claim C2). -/

def rootA : Addr := 0
def pkgA : Addr := 1
def protocolsA : Addr := 2
def portsA : Addr := 3
def hostsA : Addr := 4
def urlsA : Addr := 5
def sslA : Addr := 6
def sslWebA : Addr := 7
def sslApiA : Addr := 8
def emailA : Addr := 9
def emailMessageA : Addr := 10
def juiceResourcesA : Addr := 11
def livereloadA : Addr := 12
def loggerCfgA : Addr := 13
def corsA : Addr := 14
def rateLimitA : Addr := 15
def koaManifestRevA : Addr := 16
def i18nCfgA : Addr := 17
def serveStaticA : Addr := 18
def mongooseA : Addr := 19
def mongoA : Addr := 20
def agendaA : Addr := 21
def agendaJobsA : Addr := 22
def awsA : Addr := 23
def awsParamsA : Addr := 24
def viewsA : Addr := 25
def viewsOptionsA : Addr := 26
def viewsMapA : Addr := 27
def viewsLocalsA : Addr := 28
def filtersA : Addr := 29
def csrfA : Addr := 30
def authA : Addr := 31
def providersA : Addr := 32
def strategiesA : Addr := 33
def strategyLocalA : Addr := 34
def strategyGoogleA : Addr := 35
def callbackOptsA : Addr := 36
def authGoogleA : Addr := 37
def googleScopeA : Addr := 38
def stripeA : Addr := 39

/-- Address of the object allocated by `Object.assign({}, config.views)`
(line 281). -/
def emailViewsA : Addr := 100

/-- Address of the object literal `{ relativeTo: config.buildDir }`
(line 284). -/
def webResourcesA : Addr := 101

/-- `require('../package')`: the scalar string fields of `src/package.json`
that identify the package (its nested configuration tables are data the
pipeline never reads and are omitted). -/
def pkgObj : Obj :=
  [("name", .prim (.str "lad")),
   ("description", .prim (.str "Lad is the best Node.js framework. Made by a former Express TC and Koa team member.")),
   ("version", .prim (.str "1.0.13")),
   ("author", .prim (.str "Nick Baugh <niftylettuce@gmail.com> (http://niftylettuce.com)")),
   ("bin", .prim (.str "cli.js")),
   ("main", .prim (.str "sao.js")),
   ("license", .prim (.str "MIT"))]

/-- `config.views` (lines 137-158). -/
def viewsObj : Obj :=
  [("root", .prim (.pathJoin "../app/views")),
   ("options", .ref viewsOptionsA),
   ("locals", .ref viewsLocalsA)]

/-- `config.views.options` (lines 143-147). -/
def viewsOptionsObj : Obj :=
  [("extension", .prim (.str "pug")),
   ("map", .ref viewsMapA),
   ("engineSource", .prim (.func "consolidate"))]

/-- `config.views.locals` (lines 150-157).  The `...utilities` spread inserts
the helper functions of `src/template/config/utilities.js` (a module of this
repository that is not under `src/`); they are modelled as a parameter list
`us` of function-valued scalar fields spread between `cache` and `filters`. -/
def viewsLocalsObj (us : List (String × Scalar)) : Obj :=
  ("pretty", .prim (.sbool true)) ::
  ("cache", .prim (.dyn "cacheFlag")) ::
  (us.map (fun kv => (kv.1, HVal.prim kv.2)) ++ [("filters", .ref filtersA)])

/-- `config.auth` (lines 164-228), plus the derived
`hasThirdPartyProviders` field written at line 241 (its value is an OR of
environment booleans, hence `.dyn`). -/
def authObj : Obj :=
  [("local", .prim (.envv "AUTH_LOCAL_ENABLED")),
   ("providers", .ref providersA),
   ("strategies", .ref strategiesA),
   ("catchError", .prim (.func "catchError")),
   ("callbackOpts", .ref callbackOptsA),
   ("google", .ref authGoogleA),
   ("hasThirdPartyProviders", .prim (.dyn "hasThirdPartyProviders"))]

/-- `config.auth.providers` (lines 166-174). -/
def providersObj : Obj :=
  [("facebook", .prim (.envv "AUTH_FACEBOOK_ENABLED")),
   ("twitter", .prim (.envv "AUTH_TWITTER_ENABLED")),
   ("google", .prim (.envv "AUTH_GOOGLE_ENABLED")),
   ("github", .prim (.envv "AUTH_GITHUB_ENABLED")),
   ("linkedin", .prim (.envv "AUTH_LINKEDIN_ENABLED")),
   ("instagram", .prim (.envv "AUTH_INSTAGRAM_ENABLED")),
   ("stripe", .prim (.envv "AUTH_STRIPE_ENABLED"))]

/-- `config.auth.strategies.local` (lines 176-192). -/
def strategyLocalObj : Obj :=
  [("usernameField", .prim (.str "email")),
   ("passwordField", .prim (.str "password")),
   ("usernameLowerCase", .prim (.sbool true)),
   ("limitAttempts", .prim (.sbool true)),
   ("maxAttempts", .prim (.dyn "maxAttempts")),
   ("digestAlgorithm", .prim (.str "sha256")),
   ("encoding", .prim (.str "hex")),
   ("saltlen", .prim (.num 32)),
   ("iterations", .prim (.num 25000)),
   ("keylen", .prim (.num 512)),
   ("passwordValidator", .prim (.func "passwordValidator"))]

/-- `config.auth.strategies.google` (lines 193-197). -/
def strategyGoogleObj : Obj :=
  [("clientID", .prim (.envv "GOOGLE_CLIENT_ID")),
   ("clientSecret", .prim (.envv "GOOGLE_CLIENT_SECRET")),
   ("callbackURL", .prim (.dyn "googleCallbackURL"))]

/-- `config.auth.callbackOpts` (lines 214-219). -/
def callbackOptsObj : Obj :=
  [("successReturnToOrRedirect", .prim (.str "/")),
   ("failureRedirect", .prim (.str "/login")),
   ("successFlash", .prim (.sbool true)),
   ("failureFlash", .prim (.sbool true))]

/-- `config.auth.google` (lines 220-227); the `scope` array is an object with
index keys. -/
def authGoogleObj : Obj :=
  [("accessType", .prim (.str "offline")),
   ("approvalPrompt", .prim (.str "force")),
   ("scope", .ref googleScopeA)]

def googleScopeObj : Obj :=
  [("0", .prim (.str "https://www.googleapis.com/auth/userinfo.email")),
   ("1", .prim (.str "https://www.googleapis.com/auth/userinfo.profile"))]

/-- The `config` object literal itself (lines 18-235), with the derived
`meta` field (line 244: `config.meta = meta(config)`, whose value is produced
by `src/template/config/meta.js`, not under `src/`, hence opaque `.dyn`). -/
def rootObj : Obj :=
  [("emailFontPath", .prim (.pathJoin "../assets/fonts/GoudyBookletter1911.otf")),
   ("pkg", .ref pkgA),
   ("protocols", .ref protocolsA),
   ("ports", .ref portsA),
   ("hosts", .ref hostsA),
   ("env", .prim (.envv "NODE_ENV")),
   ("urls", .ref urlsA),
   ("ssl", .ref sslA),
   ("googleTranslateKey", .prim (.envv "GOOGLE_TRANSLATE_KEY")),
   ("webRequestTimeoutMs", .prim (.envv "WEB_REQUEST_TIMEOUT_MS")),
   ("apiRequestTimeoutMs", .prim (.envv "API_REQUEST_TIMEOUT_MS")),
   ("contactRequestMaxLength", .prim (.envv "CONTACT_REQUEST_MAX_LENGTH")),
   ("cookiesKey", .prim (.envv "COOKIES_KEY")),
   ("email", .ref emailA),
   ("livereload", .ref livereloadA),
   ("logger", .ref loggerCfgA),
   ("ga", .prim (.envv "GOOGLE_ANALYTICS")),
   ("sessionKeys", .prim (.envv "SESSION_KEYS")),
   ("trustProxy", .prim (.envv "TRUST_PROXY")),
   ("isCactiEnabled", .prim (.envv "IS_CACTI_ENABLED")),
   ("cors", .ref corsA),
   ("rateLimit", .ref rateLimitA),
   ("koaManifestRev", .ref koaManifestRevA),
   ("appFavicon", .prim (.pathJoin "../assets/img/favicon.ico")),
   ("appName", .prim (.envv "APP_NAME")),
   ("i18n", .ref i18nCfgA),
   ("serveStatic", .ref serveStaticA),
   ("mongoose", .ref mongooseA),
   ("agenda", .ref agendaA),
   ("agendaCollectionName", .prim (.envv "AGENDA_COLLECTION_NAME")),
   ("agendaRecurringJobs", .ref agendaJobsA),
   ("aws", .ref awsA),
   ("redis", .prim (.envv "REDIS_URL")),
   ("buildDir", .prim (.pathJoin "../build")),
   ("views", .ref viewsA),
   ("csrf", .ref csrfA),
   ("auth", .ref authA),
   ("stripe", .ref stripeA),
   ("meta", .prim (.dyn "meta"))]

/-- The heap right before line 247, parametrised by the `...utilities` spread
contents `us`. -/
def baseHeap (us : List (String × Scalar)) : Heap :=
  [(rootA, rootObj),
   (pkgA, pkgObj),
   (protocolsA, [("web", .prim (.envv "WEB_PROTOCOL")), ("api", .prim (.envv "API_PROTOCOL"))]),
   (portsA, [("web", .prim (.envv "WEB_PORT")), ("api", .prim (.envv "API_PORT"))]),
   (hostsA, [("web", .prim (.envv "WEB_HOST")), ("api", .prim (.envv "API_HOST"))]),
   (urlsA, [("web", .prim (.envv "WEB_URL")), ("api", .prim (.envv "API_URL"))]),
   (sslA, [("web", .ref sslWebA), ("api", .ref sslApiA)]),
   (sslWebA, []),
   (sslApiA, []),
   (emailA, [("message", .ref emailMessageA),
             ("send", .prim (.envv "SEND_EMAIL")),
             ("juiceResources", .ref juiceResourcesA)]),
   (emailMessageA, [("from", .prim (.envv "EMAIL_DEFAULT_FROM"))]),
   (juiceResourcesA, [("preserveImportant", .prim (.sbool true))]),
   (livereloadA, [("port", .prim (.envv "LIVERELOAD_PORT"))]),
   (loggerCfgA, [("showStack", .prim (.envv "SHOW_STACK")),
                 ("appName", .prim (.envv "APP_NAME"))]),
   (corsA, []),
   (rateLimitA, [("duration", .prim (.num 60000)),
                 ("max", .prim (.dyn "rateLimitMax")),
                 ("id", .prim (.func "rateLimitId"))]),
   (koaManifestRevA, [("manifest", .prim (.pathJoin "../build/rev-manifest.json")),
                      ("prepend", .prim (.dyn "koaManifestPrepend"))]),
   (i18nCfgA, [("phrases", .prim (.moduleRef "phrases")),
               ("directory", .prim (.pathJoin "../locales"))]),
   (serveStaticA, []),
   (mongooseA, [("debug", .prim (.envv "MONGOOSE_DEBUG")),
                ("Promise", .prim (.func "globalPromise")),
                ("mongo", .ref mongoA)]),
   (mongoA, [("url", .prim (.envv "DATABASE_URL"))]),
   (agendaA, [("name", .prim (.dyn "agendaName")),
              ("maxConcurrency", .prim (.envv "AGENDA_MAX_CONCURRENCY"))]),
   (agendaJobsA, []),
   (awsA, [("key", .prim (.envv "AWS_IAM_KEY")),
           ("accessKeyId", .prim (.envv "AWS_IAM_KEY")),
           ("secret", .prim (.envv "AWS_IAM_SECRET")),
           ("secretAccessKey", .prim (.envv "AWS_IAM_SECRET")),
           ("distributionId", .prim (.envv "AWS_CF_DI")),
           ("domainName", .prim (.envv "AWS_CF_DOMAIN")),
           ("params", .ref awsParamsA)]),
   (awsParamsA, [("Bucket", .prim (.envv "AWS_S3_BUCKET"))]),
   (viewsA, viewsObj),
   (viewsOptionsA, viewsOptionsObj),
   (viewsMapA, []),
   (viewsLocalsA, viewsLocalsObj us),
   (filtersA, []),
   (csrfA, []),
   (authA, authObj),
   (providersA, providersObj),
   (strategiesA, [("local", .ref strategyLocalA), ("google", .ref strategyGoogleA)]),
   (strategyLocalA, strategyLocalObj),
   (strategyGoogleA, strategyGoogleObj),
   (callbackOptsA, callbackOptsObj),
   (authGoogleA, authGoogleObj),
   (googleScopeA, googleScopeObj),
   (stripeA, [("secretKey", .prim (.envv "STRIPE_SECRET_KEY")),
              ("publishableKey", .prim (.envv "STRIPE_PUBLISHABLE_KEY"))])]

/-! ## The augmentation stage (lines 247-284) -/

/-- The options passed to `nodemailer.createTransport` (lines 261-271). -/
structure TransportInit where
  service : String
  authUser : Scalar
  authPass : Scalar
  withLogger : Bool
deriving DecidableEq

/-- The options passed to `base64ToS3` (lines 274-277): `aws` is the reference
`config.aws` read from the heap. -/
structure Base64ToS3Init where
  cloudFrontDomainName : Scalar
  aws : Option HVal
deriving DecidableEq

/-- A middleware value handed to `transport.use`. -/
inductive Middleware where
  | base64ToS3 (opts : Base64ToS3Init)
deriving DecidableEq

/-- The options passed to `new I18N({...config.i18n, logger})` (lines 248-251). -/
structure I18NInit where
  phrases : Option HVal
  directory : Option HVal
  withLogger : Bool
deriving DecidableEq

/-- Result of the augmentation stage: the mutated heap plus the construction
trace of the collaborators (i18n engine, mail transports created, middleware
registrations performed). -/
structure AugmentResult where
  heap : Heap
  i18nCtor : I18NInit
  transports : List TransportInit
  uses : List (String × Middleware)

/-- Lines 247-284 in source order.  Heap writes resolve their target objects
through the fixed references of the base literal (`config.views.locals.filters`
is the object at `filtersA`, `config.email` the object at `emailA`, ...). -/
def augmentConfig (h : Heap) : AugmentResult :=
  -- lines 247-251: `new Logger(config.logger)`, `new I18N({...config.i18n, logger})`
  let i18nAddr : Option Addr :=
    match fieldGet h rootA "i18n" with
    | some (.ref a) => some a
    | _ => none
  let i18nCtor : I18NInit :=
    { phrases := i18nAddr.bind (fun a => fieldGet h a "phrases"),
      directory := i18nAddr.bind (fun a => fieldGet h a "directory"),
      withLogger := true }
  -- lines 252-254: `config.views.locals.filters.translate = function() {...}`
  let h1 := setField h filtersA "translate" (.prim (.handle "translateFilter"))
  -- line 258: `config.views.locals.config = config`
  let h2 := setField h1 viewsLocalsA "config" (.ref rootA)
  -- lines 261-271: `config.email.transport = nodemailer.createTransport({...})`
  let transports : List TransportInit :=
    [{ service := "postmark",
       authUser := .envv "POSTMARK_API_TOKEN",
       authPass := .envv "POSTMARK_API_TOKEN",
       withLogger := true }]
  let h3 := setField h2 emailA "transport" (.prim (.handle "transport"))
  -- lines 272-278: `config.email.transport.use('compile', base64ToS3({...}))`
  let uses : List (String × Middleware) :=
    [("compile", .base64ToS3
        { cloudFrontDomainName := .envv "AWS_CF_DOMAIN",
          aws := fieldGet h3 rootA "aws" })]
  -- line 281: `config.email.views = Object.assign({}, config.views)`
  let viewsCopy : Obj :=
    match fieldGet h3 rootA "views" with
    | some (.ref a) => (heapGet h3 a).getD []
    | _ => []
  let h4 : Heap := (emailViewsA, viewsCopy) :: h3
  let h5 := setField h4 emailA "views" (.ref emailViewsA)
  -- line 282: `config.email.views.root = path.join(__dirname, '..', 'emails')`
  let h6 := setField h5 emailViewsA "root" (.prim (.pathJoin "../emails"))
  -- line 283: `config.email.i18n = config.i18n`
  let h7 := setField h6 emailA "i18n"
    ((fieldGet h6 rootA "i18n").getD (.prim (.dyn "unreachable")))
  -- line 284: `config.email.juiceResources.webResources = { relativeTo: config.buildDir }`
  let h8 : Heap :=
    (webResourcesA,
      [("relativeTo", (fieldGet h7 rootA "buildDir").getD (.prim (.dyn "unreachable")))]) :: h7
  let h9 := setField h8 juiceResourcesA "webResources" (.ref webResourcesA)
  { heap := h9, i18nCtor := i18nCtor, transports := transports, uses := uses }

/-- The heap after the whole pipeline has run. -/
def finalHeap (us : List (String × Scalar)) : Heap :=
  (augmentConfig (baseHeap us)).heap

/-- The (address, key) slots written by the augmentation stage, in write
order.  (The alloc of `emailViewsA`/`webResourcesA` themselves are fresh
objects, absent from the base heap.) -/
def augmentTargets : List (Addr × String) :=
  [(filtersA, "translate"),
   (viewsLocalsA, "config"),
   (emailA, "transport"),
   (emailA, "views"),
   (emailViewsA, "root"),
   (emailA, "i18n"),
   (juiceResourcesA, "webResources")]

/-- The `...utilities` spread introduces no key that a later pipeline stage
writes or that the locals literal re-declares after it. -/
def usOk (us : List (String × Scalar)) : Bool :=
  us.all (fun kv =>
    decide (kv.1 ≠ "pretty" ∧ kv.1 ≠ "cache" ∧ kv.1 ≠ "filters" ∧ kv.1 ≠ "config"))

/-- The path `views.locals.config` repeated `n` times. -/
def cyclePath (n : Nat) : List String :=
  (List.replicate n ["views", "locals", "config"]).join

/-! ### Claim C7: the translate filter forwards to the i18n engine -/

/-- Lines 252-254: `config.views.locals.filters.translate = function() {
return i18n.api.t(...arguments); }` — a closure that forwards its entire
argument list to the engine's translate function and returns its result.
`t` is the engine's `api.t`, of type argument-list to translated string. -/
def translateFilter (t : List Scalar → String) : List Scalar → String :=
  fun args => t args

/-! ### Claim C4: `hasThirdPartyProviders` (line 241) -/

/-- `config.auth.providers` (lines 166-174) with the environment booleans
substituted: the seven named provider flags in source order. -/
def providerFlags (facebook twitter google github linkedin instagram stripe : Bool) :
    List (String × Bool) :=
  [("facebook", facebook), ("twitter", twitter), ("google", google),
   ("github", github), ("linkedin", linkedin), ("instagram", instagram),
   ("stripe", stripe)]

/-- Line 241: `_.some(config.auth.providers, bool => bool)` — true iff some
value of the collection is truthy. -/
def someTruthy (ps : List (String × Bool)) : Bool :=
  ps.any (fun kv => kv.2)

/-! ### Claim C5: SEO metadata derivation (line 244) -/

/-- Modelled from the spec: `config.meta = meta(config)` (line 244) applies
`src/template/config/meta.js`, code of this repository that is not under
`src/`.  Per the spec, it synthesizes per-page SEO metadata from templates
keyed by page identifier by substituting the application name into the
template.  A template is a sequence of literal pieces and `appName`
placeholders (the spec's `"{app} — Home"` is `[appName, lit " — Home"]`). -/
inductive MetaPiece where
  | lit (s : String)
  | appName
deriving DecidableEq

/-- Render one template against the application name. -/
def renderMeta (t : List MetaPiece) (app : String) : String :=
  (t.map (fun p => match p with | .lit s => s | .appName => app)).foldl
    (fun acc s => acc ++ s) ""

/-- Modelled from the spec: look a page key up in the per-page template table;
a missing key yields a defined default (the bare application name) rather than
throwing. -/
def metaTitle (pages : List (String × List MetaPiece)) (app page : String) : String :=
  match pages.lookup page with
  | some t => renderMeta t app
  | none => renderMeta [.appName] app

/-- The spec's fixture: page key `"home"` with template `"{app} — Home"`. -/
def homePages : List (String × List MetaPiece) :=
  [("home", [.appName, .lit " — Home"])]

/-! ### Lookup lemmas for the merge engine -/

theorem lookupF_setKey_same : ∀ (bfs : JSFields) (k : String) (ov : JSVal),
    lookupF (setKey bfs k ov) k
      = some ((lookupF bfs k).elim ov (fun bv => mergeVal bv ov))
  | .fnil, k, ov => by simp [setKey, lookupF]
  | .fcons k1 bv tl, k, ov => by
    by_cases h : k1 = k
    · subst h; simp [setKey, lookupF]
    · simp [setKey, lookupF, h, lookupF_setKey_same tl k ov]
termination_by bfs _ _ => sizeOf bfs

theorem lookupF_setKey_other : ∀ (bfs : JSFields) (k1 : String) (ov : JSVal)
    (k : String), k1 ≠ k → lookupF (setKey bfs k1 ov) k = lookupF bfs k
  | .fnil, k1, ov, k, h => by simp [setKey, lookupF, h]
  | .fcons k2 bv tl, k1, ov, k, h => by
    by_cases h2 : k2 = k1
    · subst h2; simp [setKey, lookupF, h]
    · by_cases h3 : k2 = k
      · subst h3; simp [setKey, lookupF, h2]
      · simp [setKey, lookupF, h2, h3, lookupF_setKey_other tl k1 ov k h]
termination_by bfs _ _ _ => sizeOf bfs

theorem lookupF_mergeFields_of_absent : ∀ (bfs fs : JSFields) (k : String),
    lookupF fs k = none → lookupF (mergeFields bfs fs) k = lookupF bfs k
  | bfs, .fnil, k, _ => by simp [mergeFields]
  | bfs, .fcons k1 ov tl, k, h => by
    have hk1 : k1 ≠ k := by
      intro e; subst e; simp [lookupF] at h
    have htl : lookupF tl k = none := by
      simpa [lookupF, hk1] using h
    rw [show mergeFields bfs (.fcons k1 ov tl) = mergeFields (setKey bfs k1 ov) tl
          from by simp [mergeFields]]
    rw [lookupF_mergeFields_of_absent _ tl k htl, lookupF_setKey_other _ _ _ _ hk1]
termination_by _ fs _ => sizeOf fs

theorem setKey_eq_self : ∀ (bfs : JSFields) (k : String) (ov v : JSVal),
    lookupF bfs k = some v → mergeVal v ov = v → setKey bfs k ov = bfs
  | .fnil, k, ov, v, hb, _ => by simp [lookupF] at hb
  | .fcons k1 bv tl, k, ov, v, hb, hm => by
    by_cases h : k1 = k
    · subst h
      simp [lookupF] at hb
      subst hb
      simp [setKey, hm]
    · simp [lookupF, h] at hb
      simp [setKey, h, setKey_eq_self tl k ov v hb hm]
termination_by bfs _ _ _ => sizeOf bfs

/-- From `hasKeyF fs k = false` to a `lookupF` fact. -/
theorem lookupF_eq_none_of_hasKeyF (fs : JSFields) (k : String)
    (h : hasKeyF fs k = false) : lookupF fs k = none := by
  cases hl : lookupF fs k with
  | none => rfl
  | some v => simp [hasKeyF, hl] at h

/-! ### Concatenation lemmas (merging into an empty base is a copy) -/

mutual
theorem mergeVal_self : ∀ (o : JSVal), wfV o = true → mergeVal o o = o
  | .undef, _ => by simp [mergeVal]
  | .scalar s, _ => by simp [mergeVal]
  | .func t, _ => by simp [mergeVal]
  | .arr fs, h => by
      have hf : wfF fs = true := by simpa [wfV] using h
      simpa [mergeVal] using mergeFields_absorb fs fs (fun _ _ hv => hv) hf
  | .obj fs, h => by
      have hf : wfF fs = true := by simpa [wfV] using h
      simpa [mergeVal] using mergeFields_absorb fs fs (fun _ _ hv => hv) hf
termination_by o => sizeOf o

theorem mergeFields_absorb : ∀ (bfs fs : JSFields),
    (∀ k v, lookupF fs k = some v → lookupF bfs k = some v) → wfF fs = true →
    mergeFields bfs fs = bfs
  | _, .fnil, _, _ => by simp [mergeFields]
  | bfs, .fcons k ov tl, hsub, h => by
      have h2 := h
      simp only [wfF, Bool.and_eq_true, Bool.not_eq_true'] at h2
      obtain ⟨⟨hk, hov⟩, htl⟩ := h2
      have hov2 : mergeVal ov ov = ov := mergeVal_self ov hov
      have hbk : lookupF bfs k = some ov := hsub k ov (by simp [lookupF])
      have hset : setKey bfs k ov = bfs := setKey_eq_self bfs k ov ov hbk hov2
      rw [show mergeFields bfs (.fcons k ov tl) = mergeFields (setKey bfs k ov) tl
            from by simp [mergeFields]]
      rw [hset]
      refine mergeFields_absorb bfs tl (fun k2 v2 hv2 => ?_) htl
      by_cases e : k = k2
      · subst e
        rw [lookupF_eq_none_of_hasKeyF tl k hk] at hv2
        exact absurd hv2 (by simp)
      · exact hsub k2 v2 (by simpa [lookupF, e] using hv2)
termination_by bfs fs => sizeOf fs

end

/-! ### Idempotence of the merge -/

mutual
theorem mergeVal_idem : ∀ (b o : JSVal), wfV o = true →
    mergeVal (mergeVal b o) o = mergeVal b o
  | _, .undef, _ => by simp [mergeVal]
  | _, .scalar s, _ => by simp [mergeVal]
  | _, .func t, _ => by simp [mergeVal]
  | b, .arr os, h => by
      have hf : wfF os = true := by simpa [wfV] using h
      cases b <;> simp [mergeVal] <;> exact mergeFields_idem _ os hf
  | b, .obj fs, h => by
      have hf : wfF fs = true := by simpa [wfV] using h
      cases b <;> simp [mergeVal] <;> exact mergeFields_idem _ fs hf
termination_by b o => sizeOf o

theorem mergeFields_idem : ∀ (bfs fs : JSFields), wfF fs = true →
    mergeFields (mergeFields bfs fs) fs = mergeFields bfs fs
  | _, .fnil, _ => by simp [mergeFields]
  | bfs, .fcons k ov tl, h => by
      have h2 := h
      simp only [wfF, Bool.and_eq_true, Bool.not_eq_true'] at h2
      obtain ⟨⟨hk, hov⟩, htl⟩ := h2
      have hknone : lookupF tl k = none := lookupF_eq_none_of_hasKeyF tl k hk
      rw [show mergeFields bfs (.fcons k ov tl) = mergeFields (setKey bfs k ov) tl
            from by simp [mergeFields]]
      rw [show mergeFields (mergeFields (setKey bfs k ov) tl) (.fcons k ov tl)
            = mergeFields (setKey (mergeFields (setKey bfs k ov) tl) k ov) tl
            from by simp [mergeFields]]
      cases hbv : lookupF bfs k with
      | some bv =>
          have hB : lookupF (setKey bfs k ov) k = some (mergeVal bv ov) := by
            rw [lookupF_setKey_same]; simp [hbv]
          have hM : lookupF (mergeFields (setKey bfs k ov) tl) k
              = some (mergeVal bv ov) := by
            rw [lookupF_mergeFields_of_absent _ _ _ hknone]; exact hB
          have hset : setKey (mergeFields (setKey bfs k ov) tl) k ov
              = mergeFields (setKey bfs k ov) tl :=
            setKey_eq_self _ _ _ _ hM (mergeVal_idem bv ov hov)
          rw [hset]
          exact mergeFields_idem (setKey bfs k ov) tl htl
      | none =>
          have hB : lookupF (setKey bfs k ov) k = some ov := by
            rw [lookupF_setKey_same]; simp [hbv]
          have hM : lookupF (mergeFields (setKey bfs k ov) tl) k = some ov := by
            rw [lookupF_mergeFields_of_absent _ _ _ hknone]; exact hB
          have hset : setKey (mergeFields (setKey bfs k ov) tl) k ov
              = mergeFields (setKey bfs k ov) tl :=
            setKey_eq_self _ _ _ _ hM (mergeVal_self ov hov)
          rw [hset]
          exact mergeFields_idem (setKey bfs k ov) tl htl
termination_by bfs fs => sizeOf fs

end

/-! ### Per-key behaviour of the field merge -/

theorem lookupF_mergeFields_onlyOverlay : ∀ (bfs fs : JSFields) (k : String) (ov : JSVal),
    nodupKeysF fs = true → lookupF bfs k = none → lookupF fs k = some ov →
    lookupF (mergeFields bfs fs) k = some ov
  | _, .fnil, k, _, _, _, ho => by simp [lookupF] at ho
  | bfs, .fcons k1 ov1 tl, k, ov, hnd, hb, ho => by
    have hnd2 := hnd
    simp only [nodupKeysF, Bool.and_eq_true, Bool.not_eq_true'] at hnd2
    obtain ⟨hk1, htl⟩ := hnd2
    rw [show mergeFields bfs (.fcons k1 ov1 tl) = mergeFields (setKey bfs k1 ov1) tl
          from by simp [mergeFields]]
    by_cases e : k1 = k
    · subst e
      have hov : ov1 = ov := by simpa [lookupF] using ho
      subst hov
      rw [lookupF_mergeFields_of_absent _ tl k1 (lookupF_eq_none_of_hasKeyF tl k1 hk1)]
      rw [lookupF_setKey_same]
      simp [hb]
    · have ho2 : lookupF tl k = some ov := by simpa [lookupF, e] using ho
      have hb2 : lookupF (setKey bfs k1 ov1) k = none := by
        rw [lookupF_setKey_other _ _ _ _ e]; exact hb
      exact lookupF_mergeFields_onlyOverlay _ tl k ov htl hb2 ho2
termination_by _ fs _ _ => sizeOf fs

/-- C2: when the overlay set has no entry for the current environment name, or
the entry is not an object-like value, the guarded merge of lines 237-238
returns the base configuration unchanged; the pipeline continues (the guard is
an `if` with no `else` and no error path — the embedding is a total function). -/
theorem c2_absent_overlay_identity (base : JSVal) (overlays : JSFields)
    (envName : String)
    (h : ∀ o, lookupF overlays envName = some o → isObjectLike o = false) :
    applyOverlay base overlays envName = base := by
  have hs : overlayStructured overlays envName = false := by
    cases hl : lookupF overlays envName with
    | none => simp [overlayStructured, hl]
    | some o => simp [overlayStructured, hl, h o hl]
  simp [applyOverlay, hs]

/-- Witness for C2: an empty overlay set leaves the base untouched. -/
theorem c2_absent_overlay_identity_witness :
    applyOverlay c1Base .fnil "production" = c1Base :=
  c2_absent_overlay_identity c1Base .fnil "production"
    (fun o ho => by simp [lookupF] at ho)

/-! ### Claim C3: merging the same overlay twice changes nothing further -/

/-- C3: the merge of line 238 is idempotent — re-merging the same overlay onto
an already-merged result is the identity.  The hypothesis `wfV o = true` states
that every object layer of the overlay has pairwise-distinct keys, which is
true of every value produced by a JavaScript runtime. -/
theorem c3_merge_idempotent (b o : JSVal) (h : wfV o = true) :
    mergeVal (mergeVal b o) o = mergeVal b o :=
  mergeVal_idem b o h

/-- Witness for C3 at base `{a: [1,2]}`, overlay `{a: [9]}`. -/
theorem c3_merge_idempotent_witness :
    wfV c1Overlay = true
    ∧ mergeVal (mergeVal c1Base c1Overlay) c1Overlay = mergeVal c1Base c1Overlay :=
  ⟨by simp [c1Overlay, wfV, wfF, hasKeyF, lookupF],
   c3_merge_idempotent c1Base c1Overlay
     (by simp [c1Overlay, wfV, wfF, hasKeyF, lookupF])⟩

/-! ### Frame lemmas for heap mutation -/

theorem objGet_objSet_same : ∀ (o : Obj) (k : String) (v : HVal),
    objGet (objSet o k v) k = some v
  | [], k, v => by simp [objSet, objGet]
  | (k1, v1) :: tl, k, v => by
    by_cases e : k1 = k
    · subst e; simp [objSet, objGet]
    · simp [objSet, objGet, e, objGet_objSet_same tl k v]

theorem objGet_objSet_other : ∀ (o : Obj) (k : String) (v : HVal) (k2 : String),
    k2 ≠ k → objGet (objSet o k v) k2 = objGet o k2
  | [], k, v, k2, hne => by simp [objSet, objGet, Ne.symm hne]
  | (k1, v1) :: tl, k, v, k2, hne => by
    by_cases e : k1 = k
    · subst e; simp [objSet, objGet, Ne.symm hne]
    · by_cases e2 : k1 = k2
      · subst e2; simp [objSet, objGet, e]
      · simp [objSet, objGet, e, e2, objGet_objSet_other tl k v k2 hne]

theorem heapGet_setField_same : ∀ (h : Heap) (a : Addr) (k : String) (v : HVal),
    heapGet (setField h a k v) a = (heapGet h a).map (fun o => objSet o k v)
  | [], a, k, v => by simp [setField, heapGet]
  | (a1, o) :: tl, a, k, v => by
    by_cases e : a1 = a
    · subst e; simp [setField, heapGet]
    · simp [setField, heapGet, e, heapGet_setField_same tl a k v]

theorem heapGet_setField_other : ∀ (h : Heap) (a : Addr) (k : String) (v : HVal)
    (a2 : Addr), a2 ≠ a → heapGet (setField h a k v) a2 = heapGet h a2
  | [], a, k, v, a2, hne => by simp [setField, heapGet]
  | (a1, o) :: tl, a, k, v, a2, hne => by
    by_cases e : a1 = a
    · subst e; simp [setField, heapGet, Ne.symm hne, heapGet_setField_other tl a1 k v a2 hne]
    · by_cases e2 : a1 = a2
      · subst e2; simp [setField, heapGet, e]
      · simp [setField, heapGet, e, e2, heapGet_setField_other tl a k v a2 hne]

theorem fieldGet_setField_other_addr (h : Heap) (a : Addr) (k : String)
    (v : HVal) (a2 : Addr) (k2 : String) (hne : a2 ≠ a) :
    fieldGet (setField h a k v) a2 k2 = fieldGet h a2 k2 := by
  simp only [fieldGet, heapGet_setField_other h a k v a2 hne]

theorem fieldGet_setField_other_key (h : Heap) (a : Addr) (k : String)
    (v : HVal) (k2 : String) (hne : k2 ≠ k) :
    fieldGet (setField h a k v) a k2 = fieldGet h a k2 := by
  simp only [fieldGet, heapGet_setField_same]
  cases heapGet h a with
  | none => rfl
  | some o => simp [objGet_objSet_other o k v k2 hne]

theorem heapExtends_refl (h : Heap) : HeapExtends h h := fun _ _ _ hv => hv

theorem heapExtends_set (h0 h : Heap) (a : Addr) (k : String) (v : HVal)
    (hx : HeapExtends h0 h) (hnone : fieldGet h0 a k = none) :
    HeapExtends h0 (setField h a k v) := by
  intro a2 k2 w hw
  by_cases e1 : a2 = a
  · by_cases e2 : k2 = k
    · rw [e1, e2] at hw; rw [hnone] at hw; cases hw
    · rw [e1] at hw ⊢
      rw [fieldGet_setField_other_key h a k v k2 e2]
      exact hx _ _ _ hw
  · rw [fieldGet_setField_other_addr h a k v a2 k2 e1]; exact hx _ _ _ hw

theorem heapExtends_alloc (h0 h : Heap) (a : Addr) (o : Obj)
    (hx : HeapExtends h0 h) (hnone : heapGet h0 a = none) :
    HeapExtends h0 ((a, o) :: h) := by
  intro a2 k2 w hw
  by_cases e : a2 = a
  · subst e; simp [fieldGet, hnone] at hw
  · have hg : heapGet ((a, o) :: h) a2 = heapGet h a2 := by
      simp [heapGet, Ne.symm e]
    simp only [fieldGet, hg]
    exact hx _ _ _ hw

theorem lookupVPath_extends (h0 h1 : Heap) (hx : HeapExtends h0 h1) :
    ∀ (p : List String) (v w : HVal),
      lookupVPath h0 v p = some w → lookupVPath h1 v p = some w := by
  intro p
  induction p with
  | nil => intro v w hw; simpa [lookupVPath] using hw
  | cons k p ih =>
    intro v w hw
    cases v with
    | prim s => simp [lookupVPath] at hw
    | ref a =>
      simp only [lookupVPath] at hw ⊢
      cases hf : fieldGet h0 a k with
      | none => rw [hf] at hw; cases hw
      | some v2 =>
        rw [hf] at hw
        rw [hx a k v2 hf]
        exact ih v2 w hw

theorem usOk_spec (us : List (String × Scalar)) (h : usOk us = true) :
    ∀ kv ∈ us, kv.1 ≠ "pretty" ∧ kv.1 ≠ "cache" ∧ kv.1 ≠ "filters" ∧ kv.1 ≠ "config" := by
  intro kv hm
  have h2 := List.all_eq_true.mp h kv hm
  exact of_decide_eq_true h2

theorem objGet_usmap_append (us : List (String × Scalar)) (rest : Obj)
    (k : String) (h : ∀ kv ∈ us, kv.1 ≠ k) :
    objGet (us.map (fun kv => (kv.1, HVal.prim kv.2)) ++ rest) k = objGet rest k := by
  induction us with
  | nil => simp
  | cons kv tl ih =>
    simp only [List.map_cons, List.cons_append, objGet]
    rw [if_neg (h kv (by simp))]
    exact ih (fun kv2 hm => h kv2 (by simp [hm]))

theorem baseHeap_locals_config_none (us : List (String × Scalar))
    (h : usOk us = true) :
    fieldGet (baseHeap us) viewsLocalsA "config" = none := by
  have hg : heapGet (baseHeap us) viewsLocalsA = some (viewsLocalsObj us) := rfl
  simp only [fieldGet, hg, Option.bind]
  simp only [viewsLocalsObj, objGet]
  rw [if_neg (by decide), if_neg (by decide)]
  rw [objGet_usmap_append us _ "config" (fun kv hm => (usOk_spec us h kv hm).2.2.2)]
  simp [objGet]

/-! ### Claim C8: the augmentation stage only fills previously-unset slots -/

theorem baseHeap_unset_targets (us : List (String × Scalar)) (h : usOk us = true) :
    ∀ t ∈ augmentTargets, fieldGet (baseHeap us) t.1 t.2 = none := by
  intro t ht
  simp only [augmentTargets, List.mem_cons, List.not_mem_nil, or_false] at ht
  rcases ht with rfl | rfl | rfl | rfl | rfl | rfl | rfl
  · rfl
  · exact baseHeap_locals_config_none us h
  · rfl
  · rfl
  · rfl
  · rfl
  · rfl

theorem baseHeap_extends_finalHeap (us : List (String × Scalar))
    (h : usOk us = true) : HeapExtends (baseHeap us) (finalHeap us) := by
  show HeapExtends (baseHeap us) (augmentConfig (baseHeap us)).heap
  unfold augmentConfig
  dsimp only
  apply heapExtends_set
  · apply heapExtends_alloc
    · apply heapExtends_set
      · apply heapExtends_set
        · apply heapExtends_set
          · apply heapExtends_alloc
            · apply heapExtends_set
              · apply heapExtends_set
                · apply heapExtends_set
                  · exact heapExtends_refl _
                  · rfl
                · exact baseHeap_locals_config_none us h
              · rfl
            · rfl
          · rfl
        · rfl
      · rfl
    · rfl
  · rfl

/-- C8: the augmentation stage (lines 247-284) only ever writes into slots
that were unset when it began (`augmentTargets`, plus two freshly allocated
objects), and every property readable in the pre-augmentation configuration
graph — every path from the config root that resolved to a value — still
resolves to the same value in the final graph. -/
theorem c8_previously_set_fields_preserved (us : List (String × Scalar))
    (h : usOk us = true) :
    (∀ t ∈ augmentTargets, fieldGet (baseHeap us) t.1 t.2 = none)
    ∧ ∀ (p : List String) (w : HVal),
        lookupVPath (baseHeap us) (.ref rootA) p = some w →
        lookupVPath (finalHeap us) (.ref rootA) p = some w :=
  ⟨baseHeap_unset_targets us h,
   fun p w => lookupVPath_extends _ _ (baseHeap_extends_finalHeap us h) p _ w⟩

/-- Witness for C8, with one representative utility helper spread into
`views.locals`. -/
theorem c8_previously_set_fields_preserved_witness :
    usOk [("humanize", Scalar.func "humanize")] = true
    ∧ ((∀ t ∈ augmentTargets,
          fieldGet (baseHeap [("humanize", Scalar.func "humanize")]) t.1 t.2 = none)
       ∧ ∀ (p : List String) (w : HVal),
          lookupVPath (baseHeap [("humanize", Scalar.func "humanize")]) (.ref rootA) p
              = some w →
          lookupVPath (finalHeap [("humanize", Scalar.func "humanize")]) (.ref rootA) p
              = some w) :=
  ⟨by decide, c8_previously_set_fields_preserved _ (by decide)⟩

/-! ### Claim C9: the exported graph is cyclic through `views.locals.config` -/

theorem lookupVPath_cons_some (h : Heap) (a : Addr) (k : String)
    (p : List String) (v2 : HVal) (hf : fieldGet h a k = some v2) :
    lookupVPath h (.ref a) (k :: p) = lookupVPath h v2 p := by
  simp [lookupVPath, hf]

theorem lookupVPath_append (h : Heap) :
    ∀ (p q : List String) (v : HVal),
      lookupVPath h v (p ++ q) = (lookupVPath h v p).bind (fun v2 => lookupVPath h v2 q) := by
  intro p
  induction p with
  | nil => intro q v; simp [lookupVPath]
  | cons k p ih =>
    intro q v
    cases v with
    | prim s => simp [lookupVPath]
    | ref a =>
      simp only [List.cons_append, lookupVPath]
      cases hf : fieldGet h a k with
      | none => simp
      | some v2 => simp [ih]

theorem finalHeap_locals_config (us : List (String × Scalar)) :
    fieldGet (finalHeap us) viewsLocalsA "config" = some (.ref rootA) := by
  have hg : heapGet (finalHeap us) viewsLocalsA
      = some (objSet (viewsLocalsObj us) "config" (.ref rootA)) := rfl
  simp only [fieldGet, hg, Option.bind]
  exact objGet_objSet_same _ _ _

theorem finalHeap_cycle_step (us : List (String × Scalar)) :
    lookupVPath (finalHeap us) (.ref rootA) ["views", "locals", "config"]
      = some (.ref rootA) := by
  rw [lookupVPath_cons_some (finalHeap us) rootA "views" ["locals", "config"]
        (.ref viewsA) rfl]
  rw [lookupVPath_cons_some (finalHeap us) viewsA "locals" ["config"]
        (.ref viewsLocalsA) rfl]
  rw [lookupVPath_cons_some (finalHeap us) viewsLocalsA "config" []
        (.ref rootA) (finalHeap_locals_config us)]
  simp [lookupVPath]

/-- C9: in the final configuration graph the value at `views.locals.config` is
a reference to the config root itself (line 258), so the exported structure is
cyclic: following `views.locals.config` any number of times from the root
resolves and returns to the root, hence the graph has no finite tree unfolding
and an unguarded deep traversal never exhausts it. -/
theorem c9_config_self_reference (us : List (String × Scalar)) :
    fieldGet (finalHeap us) viewsLocalsA "config" = some (.ref rootA)
    ∧ lookupVPath (finalHeap us) (.ref rootA) ["views", "locals", "config"]
        = some (.ref rootA)
    ∧ ∀ n, lookupVPath (finalHeap us) (.ref rootA) (cyclePath n) = some (.ref rootA) := by
  refine ⟨finalHeap_locals_config us, finalHeap_cycle_step us, ?_⟩
  intro n
  induction n with
  | zero => simp [cyclePath, lookupVPath]
  | succ n ih =>
    have hsplit : cyclePath (n + 1) = ["views", "locals", "config"] ++ cyclePath n := by
      simp [cyclePath, List.replicate_succ]
    rw [hsplit, lookupVPath_append, finalHeap_cycle_step us]
    simpa using ih

/-! ### Claim C10: `config.email.views` is a shallow copy of `config.views` -/

/-- C10: after the pipeline, `config.email.views` is a fresh object (line 281)
whose `root` was re-pointed at the emails directory (line 282) while
`config.views.root` still holds the app views directory; but its `options` and
`locals` properties are the very same references as those of `config.views`,
so a later write through either alias is visible through the other. -/
theorem c10_email_views_aliasing (us : List (String × Scalar)) :
    fieldGet (finalHeap us) emailA "views" = some (.ref emailViewsA)
    ∧ emailViewsA ≠ viewsA
    ∧ fieldGet (finalHeap us) emailViewsA "root" = some (.prim (.pathJoin "../emails"))
    ∧ fieldGet (finalHeap us) viewsA "root" = some (.prim (.pathJoin "../app/views"))
    ∧ fieldGet (finalHeap us) emailViewsA "options" = some (.ref viewsOptionsA)
    ∧ fieldGet (finalHeap us) viewsA "options" = some (.ref viewsOptionsA)
    ∧ fieldGet (finalHeap us) emailViewsA "locals" = some (.ref viewsLocalsA)
    ∧ fieldGet (finalHeap us) viewsA "locals" = some (.ref viewsLocalsA)
    ∧ ∀ (k : String) (v : HVal),
        lookupVPath (setField (finalHeap us) viewsOptionsA k v) (.ref rootA)
            ["views", "options", k] = some v
        ∧ lookupVPath (setField (finalHeap us) viewsOptionsA k v) (.ref rootA)
            ["email", "views", "options", k] = some v := by
  refine ⟨rfl, by decide, rfl, rfl, rfl, rfl, rfl, rfl, ?_⟩
  intro k v
  have hopt : fieldGet (setField (finalHeap us) viewsOptionsA k v) viewsOptionsA k
      = some v := by
    have hg : heapGet (finalHeap us) viewsOptionsA = some viewsOptionsObj := rfl
    simp only [fieldGet, heapGet_setField_same, hg, Option.map_some, Option.bind]
    exact objGet_objSet_same _ _ _
  constructor
  · rw [lookupVPath_cons_some _ _ _ _ (.ref viewsA)
        (by rw [fieldGet_setField_other_addr _ _ _ _ _ _ (by decide)]; rfl)]
    rw [lookupVPath_cons_some _ _ _ _ (.ref viewsOptionsA)
        (by rw [fieldGet_setField_other_addr _ _ _ _ _ _ (by decide)]; rfl)]
    rw [lookupVPath_cons_some _ _ _ _ v hopt]
    simp [lookupVPath]
  · rw [lookupVPath_cons_some _ _ _ _ (.ref emailA)
        (by rw [fieldGet_setField_other_addr _ _ _ _ _ _ (by decide)]; rfl)]
    rw [lookupVPath_cons_some _ _ _ _ (.ref emailViewsA)
        (by rw [fieldGet_setField_other_addr _ _ _ _ _ _ (by decide)]; rfl)]
    rw [lookupVPath_cons_some _ _ _ _ (.ref viewsOptionsA)
        (by rw [fieldGet_setField_other_addr _ _ _ _ _ _ (by decide)]; rfl)]
    rw [lookupVPath_cons_some _ _ _ _ v hopt]
    simp [lookupVPath]

/-- C7: the final configuration carries a function handle at the template
filter path `views.locals.filters.translate`; the i18n engine it closes over
was constructed from the merged locale configuration (the `phrases` catalog
and the catalog directory of `config.i18n`, plus the logger); and the filter
forwards every argument list unchanged to the engine's translate function and
returns its result. -/
theorem c7_translate_filter_wiring (us : List (String × Scalar))
    (h : usOk us = true) :
    lookupVPath (finalHeap us) (.ref rootA)
        ["views", "locals", "filters", "translate"]
      = some (.prim (.handle "translateFilter"))
    ∧ (augmentConfig (baseHeap us)).i18nCtor
      = { phrases := some (.prim (.moduleRef "phrases")),
          directory := some (.prim (.pathJoin "../locales")),
          withLogger := true }
    ∧ ∀ (t : List Scalar → String) (args : List Scalar),
        translateFilter t args = t args := by
  refine ⟨?_, rfl, fun t args => rfl⟩
  rw [lookupVPath_cons_some (finalHeap us) rootA "views"
        ["locals", "filters", "translate"] (.ref viewsA) rfl]
  rw [lookupVPath_cons_some (finalHeap us) viewsA "locals"
        ["filters", "translate"] (.ref viewsLocalsA) rfl]
  have hfil : fieldGet (finalHeap us) viewsLocalsA "filters" = some (.ref filtersA) := by
    have hg : heapGet (finalHeap us) viewsLocalsA
        = some (objSet (viewsLocalsObj us) "config" (.ref rootA)) := rfl
    simp only [fieldGet, hg, Option.bind]
    rw [objGet_objSet_other _ _ _ _ (by decide)]
    simp only [viewsLocalsObj, objGet]
    rw [if_neg (by decide), if_neg (by decide)]
    rw [objGet_usmap_append us _ "filters" (fun kv hm => (usOk_spec us h kv hm).2.2.1)]
    simp [objGet]
  rw [lookupVPath_cons_some (finalHeap us) viewsLocalsA "filters"
        ["translate"] (.ref filtersA) hfil]
  rw [lookupVPath_cons_some (finalHeap us) filtersA "translate" []
        (.prim (.handle "translateFilter")) rfl]
  simp [lookupVPath]

/-- Witness for C7 with an empty utilities spread. -/
theorem c7_translate_filter_wiring_witness :
    usOk [] = true
    ∧ (lookupVPath (finalHeap []) (.ref rootA)
          ["views", "locals", "filters", "translate"]
        = some (.prim (.handle "translateFilter"))
       ∧ (augmentConfig (baseHeap [])).i18nCtor
         = { phrases := some (.prim (.moduleRef "phrases")),
             directory := some (.prim (.pathJoin "../locales")),
             withLogger := true }
       ∧ ∀ (t : List Scalar → String) (args : List Scalar),
           translateFilter t args = t args) :=
  ⟨by decide, c7_translate_filter_wiring [] (by decide)⟩

/-! ### Claim C6: exactly one transport, exactly one compile middleware -/

/-- C6: the augmentation constructs exactly one outbound mail transport, bound
to the `postmark` service with both credential fields taken from
`env.POSTMARK_API_TOKEN` (lines 261-271), and registers exactly one middleware,
the `base64ToS3` rewriter configured with the CloudFront domain and the
`config.aws` credentials object, in the transport's `compile` stage
(lines 272-278); no other middleware is registered on any stage. -/
theorem c6_single_transport_single_middleware (us : List (String × Scalar)) :
    (augmentConfig (baseHeap us)).transports
      = [{ service := "postmark",
           authUser := .envv "POSTMARK_API_TOKEN",
           authPass := .envv "POSTMARK_API_TOKEN",
           withLogger := true }]
    ∧ (augmentConfig (baseHeap us)).transports.length = 1
    ∧ (augmentConfig (baseHeap us)).uses
      = [("compile", .base64ToS3
           { cloudFrontDomainName := .envv "AWS_CF_DOMAIN",
             aws := some (.ref awsA) })]
    ∧ (augmentConfig (baseHeap us)).uses.length = 1
    ∧ ∀ e ∈ (augmentConfig (baseHeap us)).uses, e.1 = "compile" := by
  refine ⟨rfl, rfl, rfl, rfl, ?_⟩
  intro e he
  rw [show (augmentConfig (baseHeap us)).uses
      = [("compile", Middleware.base64ToS3
           { cloudFrontDomainName := .envv "AWS_CF_DOMAIN",
             aws := some (.ref awsA) })] from rfl] at he
  simp only [List.mem_singleton] at he
  rw [he]

/-- C4: the derived field `auth.hasThirdPartyProviders` is true iff at least
one of the seven named provider flags is true, and is false when all are false
(checked on the all-false, one-true and all-true fixtures). -/
theorem c4_hasThirdPartyProviders :
    (∀ facebook twitter google github linkedin instagram stripe : Bool,
      someTruthy (providerFlags facebook twitter google github linkedin instagram stripe) = true
        ↔ (facebook = true ∨ twitter = true ∨ google = true ∨ github = true
           ∨ linkedin = true ∨ instagram = true ∨ stripe = true))
    ∧ someTruthy (providerFlags false false false false false false false) = false
    ∧ someTruthy (providerFlags false false true false false false false) = true
    ∧ someTruthy (providerFlags true true true true true true true) = true := by
  refine ⟨?_, rfl, rfl, rfl⟩
  intro facebook twitter google github linkedin instagram stripe
  simp [someTruthy, providerFlags]

/-- C5: on the merged configuration's app name `"Lad"`, the SEO derivation
substitutes the name into the per-page template — page `"home"` yields
`"Lad — Home"` — and a page key with no entry yields the defined default
(`"Lad"`) rather than throwing (the embedding is a total function). -/
theorem c5_meta_substitution :
    metaTitle homePages "Lad" "home" = "Lad — Home"
    ∧ metaTitle homePages "Lad" "pricing" = "Lad" := by
  constructor
  · decide
  · decide

